import Mathlib

/-!
Shallow embedding of the subscription registry and broadcast dispatcher of
`src/index.js` (a WebSocket price-feed relay).

Modelling choices:
* JavaScript values parsed from JSON are modelled by `JsVal`.  JSON.parse can
  produce `null`, booleans, numbers, strings, arrays and objects; `undefined`
  arises only from property lookup on an object that lacks the key.  JSON
  numbers are modelled as rationals (no NaN/Infinity can come out of
  JSON.parse).
* Property access `v.k` on `null`/`undefined` throws a TypeError; this is the
  `Except.error` channel of `getProp`.  A throw escaping a handler is caught
  by the `ws.on('message')` try/catch, which then sends an
  "Invalid JSON format" error frame; state mutations made before the throw
  persist.  Handlers therefore return `(state, sentMessages, crashed)`.
* The `subscriptions` Map (keyed by the `ws` object) is an association list
  `Registry` keyed by an abstract connection handle `Nat`; JS `Map` preserves
  insertion order and `Map.set` on an existing key updates in place.
* The transport status of a socket (`readyState === OPEN`, and whether
  `ws.send` throws) is an environment `Nat → TransportStatus` supplied to the
  broadcast; sends performed inside message handlers are modelled as
  appending to the sent list (the `ws` library does not throw synchronously
  there, and no claim depends on it).
* Timestamps (`new Date().toISOString()`) are informational wall-clock data
  and are omitted from the message model; no claim mentions their value.
-/

namespace SolFeed

/-- A JavaScript value as produced by `JSON.parse` (plus `undefined` for missing
properties). -/
inductive JsVal where
  | null
  | undefined
  | bool (b : Bool)
  | num (q : ℚ)
  | str (s : String)
  | arr (elems : List JsVal)
  | obj (fields : List (String × JsVal))

/-- JavaScript truthiness.  (`NaN` cannot occur: JSON has no NaN.) -/
def truthy : JsVal → Bool
  | .null => false
  | .undefined => false
  | .bool b => b
  | .num q => !(q == 0)
  | .str s => !(s == "")
  | .arr _ => true
  | .obj _ => true

/-- `Array.isArray`. -/
def isArr : JsVal → Bool
  | .arr _ => true
  | _ => false

/-- JavaScript property access `v[k]`: throws (TypeError) on `null`/`undefined`,
returns the field of an object (objects from `JSON.parse` have unique keys),
and `undefined` on every other value. -/
def getProp : JsVal → String → Except Unit JsVal
  | .null, _ => .error ()
  | .undefined, _ => .error ()
  | .obj fields, k => .ok ((fields.find? (fun p => p.1 == k)).elim JsVal.undefined Prod.snd)
  | _, _ => .ok .undefined

/-- Decimal rendering of a rational, modelling JavaScript
`Number.prototype.toString` on the decimal values this server handles
(finite decimals print as e.g. "245.67", integers with no point). -/
def decimalToString (q : ℚ) : String :=
  let sign := if q < 0 then "-" else ""
  let n := q.num.natAbs
  let d := q.den
  match (List.range 40).find? (fun k => 10 ^ k % d == 0) with
  | some 0 => sign ++ toString n
  | some k =>
      let m := n * (10 ^ k / d)
      let s := toString m
      let s := if s.length ≤ k then
          String.mk (List.replicate (k + 1 - s.length) '0') ++ s
        else s
      sign ++ s.take (s.length - k) ++ "." ++ s.drop (s.length - k)
  | none => sign ++ toString n ++ "/" ++ toString d

/-- Display form used by the template literal in the unknown-type error
message (JavaScript `String(v)`). -/
def jsDisplay : JsVal → String
  | .null => "null"
  | .undefined => "undefined"
  | .bool true => "true"
  | .bool false => "false"
  | .num q => decimalToString q
  | .str s => s
  | .arr _ => ""
  | .obj _ => "[object Object]"

/-- Per-connection state stored in the `subscriptions` Map
(`{ id, subscribedFeeds, connectedAt }`; `connectedAt` is informational
wall-clock data and omitted). -/
structure ClientData where
  id : Nat
  subscribedFeeds : Finset ℚ
deriving DecidableEq

/-- The `subscriptions` Map: handle ↦ client data, in insertion order. -/
abbrev Registry := List (Nat × ClientData)

/-- `Map.get`. -/
def mapGet (m : Registry) (k : Nat) : Option ClientData :=
  (m.find? (fun p => p.1 == k)).map Prod.snd

/-- `Map.set`: update in place if the key is present, else append. -/
def mapSet (m : Registry) (k : Nat) (v : ClientData) : Registry :=
  if m.any (fun p => p.1 == k) then
    m.map (fun p => if p.1 == k then (k, v) else p)
  else m ++ [(k, v)]

/-- `Map.delete` (keys are unique in every reachable registry). -/
def mapDelete (m : Registry) (k : Nat) : Registry :=
  m.filter (fun p => !(p.1 == k))

/-- Transport-layer status of one socket: `readyState === OPEN`, and whether
`ws.send` succeeds (throws when `sendOk = false`). -/
structure TransportStatus where
  isOpen : Bool
  sendOk : Bool
deriving DecidableEq

/-- An outbound frame (JSON text sent over a socket), with timestamps
omitted. -/
inductive OutMessage where
  | connected (clientId : Nat) (text : String)
  | priceUpdate (updates : List (ℚ × String))
  | subscribed (subscriptionId : JsVal) (subscribedFeeds : List ℚ)
  | unsubscribed (unsubscribedFeeds : List ℚ)
  | pong
  | error (text : String)

/-- Whole-server state: the `subscriptions` Map, the `connectionId` counter
and the `currentPrices` object (feed id ↦ last price). -/
structure ServerState where
  subscriptions : Registry
  connectionId : Nat
  currentPrices : List (ℚ × ℚ)

/-- `currentPrices[f]` (keys of the JS object are the decimal strings of the
numbers, which are in bijection with the numbers themselves). -/
def priceLookup (prices : List (ℚ × ℚ)) (f : ℚ) : Option ℚ :=
  (prices.find? (fun p => p.1 == f)).map Prod.snd

/-- `currentPrices[f] = v`. -/
def priceSet (prices : List (ℚ × ℚ)) (f v : ℚ) : List (ℚ × ℚ) :=
  if prices.any (fun p => p.1 == f) then
    prices.map (fun p => if p.1 == f then (f, v) else p)
  else prices ++ [(f, v)]

/-- The single `updateMessage` object built by `broadcastPriceUpdate`. -/
def priceUpdateMessage (feedId price : ℚ) : OutMessage :=
  .priceUpdate [(feedId, decimalToString price)]

/-- The `subscriptions.forEach` loop of `broadcastPriceUpdate`: returns the
frames delivered (handle with its message, in iteration order) together with
the surviving registry.  An entry is visited in insertion order; if its
socket is OPEN and it subscribes to the feed the message is sent, and if that
send throws the entry is deleted (`subscriptions.delete(ws)` inside the
loop does not disturb iteration over the remaining entries). -/
def broadcastLoop (env : Nat → TransportStatus) (feedId : ℚ) (msg : OutMessage) :
    Registry → List (Nat × OutMessage) × Registry
  | [] => ([], [])
  | (h, cd) :: rest =>
      let t := broadcastLoop env feedId msg rest
      if (env h).isOpen then
        if feedId ∈ cd.subscribedFeeds then
          if (env h).sendOk then ((h, msg) :: t.1, (h, cd) :: t.2)
          else (t.1, t.2)
        else (t.1, (h, cd) :: t.2)
      else (t.1, (h, cd) :: t.2)

/-- `broadcastPriceUpdate(feedId, price)` acting on the registry. -/
def broadcastPriceUpdate (env : Nat → TransportStatus) (feedId price : ℚ)
    (regs : Registry) : List (Nat × OutMessage) × Registry :=
  broadcastLoop env feedId (priceUpdateMessage feedId price) regs

/-- Result of a message handler: new state, frames sent to the calling
socket in order, and whether a TypeError escaped (to be caught by the
`ws.on('message')` try/catch). -/
structure HandlerResult where
  state : ServerState
  sent : List OutMessage
  crashed : Bool

/-- The guard `sub.feedId && typeof sub.feedId === 'number'` of
`handleSubscription`, applied to the value of the `feedId` property: it
passes exactly for a truthy number, i.e. a number other than 0 (and NaN,
which JSON cannot produce).  Returns the accepted number. -/
def feedIdAccept : JsVal → Option ℚ
  | .num q => if q == 0 then none else some q
  | _ => none

lemma feedIdAccept_eq_some {v : JsVal} {q : ℚ} :
    feedIdAccept v = some q ↔ truthy v = true ∧ v = .num q := by
  cases v with
  | num q' =>
      by_cases hq : (q' == 0) = true
      · have h0 : q' = 0 := by simpa using hq
        simp [feedIdAccept, truthy, hq, h0]
      · have hqf : (q' == 0) = false := by simpa using hq
        simp [feedIdAccept, truthy, hqf]
  | null => simp [feedIdAccept, truthy]
  | undefined => simp [feedIdAccept, truthy]
  | bool b => simp [feedIdAccept, truthy]
  | str s => simp [feedIdAccept, truthy]
  | arr l => simp [feedIdAccept, truthy]
  | obj l => simp [feedIdAccept, truthy]

/-- The `message.subscriptions.forEach(sub => ...)` loop of
`handleSubscription`: threads the connection's feed set, and returns
(crashed, final feed set, accepted ids in processing order, snapshot frames
sent in order).  `sub.feedId` throws on a `null` element, aborting the rest
of the loop while keeping the mutations already made. -/
def subLoop (prices : List (ℚ × ℚ)) :
    Finset ℚ → List JsVal → Bool × Finset ℚ × List ℚ × List OutMessage
  | feeds, [] => (false, feeds, [], [])
  | feeds, el :: rest =>
      match getProp el "feedId" with
      | .error _ => (true, feeds, [], [])
      | .ok v =>
          match feedIdAccept v with
          | some q =>
              let feeds' := insert q feeds
              let snap := match priceLookup prices q with
                | some p => [priceUpdateMessage q p]
                | none => []
              let t := subLoop prices feeds' rest
              (t.1, t.2.1, q :: t.2.2.1, snap ++ t.2.2.2)
          | none => subLoop prices feeds rest

/-- `handleSubscription(ws, message)`.  The guard
`!message.subscriptions || !Array.isArray(message.subscriptions)` is
equivalent to "not an array", since every array is truthy. -/
def handleSubscription (st : ServerState) (wsH : Nat) (message : JsVal) :
    HandlerResult :=
  match mapGet st.subscriptions wsH with
  | none => ⟨st, [], false⟩
  | some cd =>
      match getProp message "subscriptions" with
      | .error _ => ⟨st, [], true⟩
      | .ok subsVal =>
          match subsVal with
          | .arr elems =>
              let r := subLoop st.currentPrices cd.subscribedFeeds elems
              let newRegs := mapSet st.subscriptions wsH
                ({ cd with subscribedFeeds := r.2.1 })
              let st' := { st with subscriptions := newRegs }
              if r.1 then ⟨st', r.2.2.2, true⟩
              else
                match getProp message "subscriptionId" with
                | .error _ => ⟨st', r.2.2.2, true⟩
                | .ok sidv =>
                    let sid := if truthy sidv then sidv else .null
                    ⟨st', r.2.2.2 ++ [.subscribed sid r.2.2.1], false⟩
          | _ => ⟨st, [.error "Invalid subscription format"], false⟩

/-- Reading a JS value as a number (used for `Set.has` on a set of numbers:
a non-number element can never be a member). -/
def asNum : JsVal → Option ℚ
  | .num q => some q
  | _ => none

/-- The `message.feedIds.forEach(feedId => ...)` loop of
`handleUnsubscription`: `subscribedFeeds.has(feedId)` is false for every
non-number (the set only ever holds numbers), so only listed numbers present
in the set are removed and acknowledged; no element can throw here. -/
def unsubLoop : Finset ℚ → List JsVal → Finset ℚ × List ℚ
  | feeds, [] => (feeds, [])
  | feeds, el :: rest =>
      match asNum el with
      | some q =>
          if q ∈ feeds then
            let t := unsubLoop (feeds.erase q) rest
            (t.1, q :: t.2)
          else unsubLoop feeds rest
      | none => unsubLoop feeds rest

/-- `handleUnsubscription(ws, message)`. -/
def handleUnsubscription (st : ServerState) (wsH : Nat) (message : JsVal) :
    HandlerResult :=
  match mapGet st.subscriptions wsH with
  | none => ⟨st, [], false⟩
  | some cd =>
      match getProp message "feedIds" with
      | .error _ => ⟨st, [], true⟩
      | .ok v =>
          match v with
          | .arr elems =>
              let r := unsubLoop cd.subscribedFeeds elems
              let newRegs := mapSet st.subscriptions wsH
                ({ cd with subscribedFeeds := r.1 })
              ⟨{ st with subscriptions := newRegs }, [.unsubscribed r.2], false⟩
          | _ => ⟨st, [.error "Invalid unsubscription format"], false⟩

/-- `handleClientMessage(ws, message)`: unknown handles are dropped before
`message.type` is even read; the switch uses strict equality, so only string
types match. -/
def handleClientMessage (st : ServerState) (wsH : Nat) (message : JsVal) :
    HandlerResult :=
  match mapGet st.subscriptions wsH with
  | none => ⟨st, [], false⟩
  | some _ =>
      match getProp message "type" with
      | .error _ => ⟨st, [], true⟩
      | .ok t =>
          match t with
          | .str "subscribe" => handleSubscription st wsH message
          | .str "unsubscribe" => handleUnsubscription st wsH message
          | .str "ping" => ⟨st, [.pong], false⟩
          | other => ⟨st, [.error ("Unknown message type: " ++ jsDisplay other)], false⟩

/-- An event delivered to the core by its collaborators: the transport layer
(`wss.on('connection')`, `ws.on('message'/'close'/'error')`) or the data
source (`publish`, i.e. lines 40-41 of `src/index.js`: write
`currentPrices[feedId]` then `broadcastPriceUpdate`).  A `clientMessage`
carries `none` when `JSON.parse` failed on the frame; `publish` carries the
transport status of every socket at delivery time. -/
inductive Event where
  | connect (h : Nat)
  | clientMessage (h : Nat) (parsed : Option JsVal)
  | close (h : Nat)
  | socketError (h : Nat)
  | publish (feedId price : ℚ) (env : Nat → TransportStatus)

/-- One transition of the server: new state plus the frames pushed out,
each tagged with the destination handle. -/
def step (st : ServerState) : Event → ServerState × List (Nat × OutMessage)
  | .connect h =>
      let cid := st.connectionId + 1
      ({ st with connectionId := cid,
                 subscriptions := mapSet st.subscriptions h ⟨cid, ∅⟩ },
       [(h, .connected cid "Connected to Bananazone price feed")])
  | .clientMessage h parsed =>
      match parsed with
      | none => (st, [(h, .error "Invalid JSON format")])
      | some m =>
          let r := handleClientMessage st h m
          if r.crashed then
            (r.state,
             (r.sent ++ [OutMessage.error "Invalid JSON format"]).map (fun o => (h, o)))
          else (r.state, r.sent.map (fun o => (h, o)))
  | .close h => ({ st with subscriptions := mapDelete st.subscriptions h }, [])
  | .socketError h => ({ st with subscriptions := mapDelete st.subscriptions h }, [])
  | .publish f v env =>
      let b := broadcastPriceUpdate env f v st.subscriptions
      ({ st with currentPrices := priceSet st.currentPrices f v,
                 subscriptions := b.2 }, b.1)

/-- The state at process start: empty registry, `connectionId = 0`,
`currentPrices = { 6: 245.67 }`. -/
def initialState : ServerState :=
  ⟨[], 0, [(6, 24567 / 100)]⟩

/-- Run a sequence of events from a state (outputs discarded). -/
def runFrom (st : ServerState) : List Event → ServerState
  | [] => st
  | e :: tr => runFrom (step st e).1 tr

/-! ### Observation functions (the spec's registry queries) -/

/-- Whether a handle currently has an entry in the registry. -/
def registeredB (st : ServerState) (h : Nat) : Bool :=
  (mapGet st.subscriptions h).isSome

/-- The feed set the registry holds for a handle (empty if unregistered). -/
def feedsOf (st : ServerState) (h : Nat) : Finset ℚ :=
  ((mapGet st.subscriptions h).map ClientData.subscribedFeeds).getD ∅

/-- The spec's `subscribersOf(feedId)`: the handles the broadcast loop would
consider, i.e. registry entries whose feed set contains the feed. -/
def subscribersOf (st : ServerState) (f : ℚ) : List Nat :=
  (st.subscriptions.filter (fun p => decide (f ∈ p.2.subscribedFeeds))).map Prod.fst

/-- The registry's keys are distinct (true in every reachable state; JS `Map`
keys are unique). -/
def keysNodup (st : ServerState) : Prop :=
  (st.subscriptions.map Prod.fst).Nodup

/-! ### Spec-side characterizations (used to state the claims) -/

/-- The feed ids a subscribe batch accepts, in processing order: elements
whose `feedId` property is a truthy number. -/
def acceptedIds (elems : List JsVal) : List ℚ :=
  elems.filterMap (fun el =>
    match getProp el "feedId" with
    | .ok v => feedIdAccept v
    | .error _ => none)

/-- The snapshot frames a subscribe batch triggers, in processing order:
one single-feed `priceUpdate` per accepted id that has a current price. -/
def expectedSnapshots (prices : List (ℚ × ℚ)) (elems : List JsVal) :
    List OutMessage :=
  (acceptedIds elems).filterMap (fun q =>
    (priceLookup prices q).map (fun p => priceUpdateMessage q p))

/-- Whether a list of JS values contains the number `q` (strict equality:
only number elements can match). -/
def listedNum (elems : List JsVal) (q : ℚ) : Bool :=
  elems.any (fun el =>
    match asNum el with
    | some q' => q' == q
    | none => false)

/-- The claim's notion of a syntactically valid feed id: a positive integer. -/
def ValidFeedId (q : ℚ) : Prop := 0 < q ∧ q.den = 1

instance : DecidablePred ValidFeedId := fun q => by
  unfold ValidFeedId; infer_instance

/-! ### Registry map lemmas -/

lemma mapGet_eq_none_of_not_mem {m : Registry} {k : Nat}
    (h : k ∉ m.map Prod.fst) : mapGet m k = none := by
  unfold mapGet
  rw [Option.map_eq_none', List.find?_eq_none]
  intro p hp
  simp only [beq_iff_eq]
  exact fun he => h (List.mem_map.2 ⟨p, hp, he⟩)

/-- The entry-update function of `mapSet` preserves every key. -/
lemma mapSet_update_fst (k : Nat) (v : ClientData) (p : Nat × ClientData) :
    (if p.1 == k then (k, v) else p).1 = p.1 := by
  by_cases hp : (p.1 == k) = true
  · have he : p.1 = k := by simpa using hp
    rw [if_pos hp, he]
  · simp [hp]

lemma mapGet_cons_of_pos {p : Nat × ClientData} {rest : Registry} {k : Nat}
    (hp : (p.1 == k) = true) : mapGet (p :: rest) k = some p.2 := by
  simp [mapGet, List.find?_cons, hp]

lemma mapGet_cons_of_neg {p : Nat × ClientData} {rest : Registry} {k : Nat}
    (hp : (p.1 == k) = false) : mapGet (p :: rest) k = mapGet rest k := by
  simp [mapGet, List.find?_cons, hp]

lemma mapGet_mapSet_self (m : Registry) (k : Nat) (v : ClientData) :
    mapGet (mapSet m k v) k = some v := by
  unfold mapSet
  by_cases hmem : m.any (fun p => p.1 == k) = true
  · rw [if_pos hmem]
    induction m with
    | nil => simp at hmem
    | cons p rest ih =>
        by_cases hp : (p.1 == k) = true
        · rw [List.map_cons, if_pos hp, mapGet_cons_of_pos (by simp)]
        · rw [List.map_cons, if_neg hp,
            mapGet_cons_of_neg (by simpa using hp)]
          exact ih (by simpa [List.any_cons, hp] using hmem)
  · rw [if_neg hmem]
    have hfind : m.find? (fun p => p.1 == k) = none := by
      rw [List.find?_eq_none]
      intro p hp
      simp only [List.any_eq_true, not_exists, not_and] at hmem
      simpa using hmem p hp
    unfold mapGet
    rw [List.find?_append, hfind]
    simp

lemma mapGet_mapSet_ne (m : Registry) (k k' : Nat) (v : ClientData)
    (hne : k' ≠ k) : mapGet (mapSet m k v) k' = mapGet m k' := by
  unfold mapSet
  by_cases hmem : m.any (fun p => p.1 == k) = true
  · rw [if_pos hmem]
    clear hmem
    induction m with
    | nil => rfl
    | cons p rest ih =>
        rw [List.map_cons]
        by_cases hp : (p.1 == k) = true
        · have hpk : p.1 = k := by simpa using hp
          have h1 : ((k, v).1 == k') = false :=
            beq_eq_false_iff_ne.mpr (fun e => hne e.symm)
          have h2 : (p.1 == k') = false :=
            beq_eq_false_iff_ne.mpr (by rw [hpk]; exact fun e => hne e.symm)
          rw [if_pos hp, mapGet_cons_of_neg h1, mapGet_cons_of_neg h2]
          exact ih
        · by_cases hp' : (p.1 == k') = true
          · rw [if_neg hp, mapGet_cons_of_pos hp', mapGet_cons_of_pos hp']
          · have hpb' : (p.1 == k') = false := by simpa using hp'
            rw [if_neg hp, mapGet_cons_of_neg hpb', mapGet_cons_of_neg hpb']
            exact ih
  · rw [if_neg hmem]
    unfold mapGet
    rw [List.find?_append]
    have hsingle : [(k, v)].find? (fun p => p.1 == k') = none := by
      rw [List.find?_cons_of_neg _ (by simpa using fun e => hne e.symm)]
      rfl
    rw [hsingle]
    cases m.find? (fun p => p.1 == k') <;> rfl

lemma mapGet_mapDelete_self (m : Registry) (k : Nat) :
    mapGet (mapDelete m k) k = none := by
  unfold mapGet mapDelete
  rw [Option.map_eq_none', List.find?_eq_none]
  intro p hp
  have := List.of_mem_filter hp
  simpa using this

lemma mapGet_mapDelete_ne (m : Registry) (k k' : Nat) (hne : k' ≠ k) :
    mapGet (mapDelete m k) k' = mapGet m k' := by
  unfold mapDelete
  induction m with
  | nil => rfl
  | cons p rest ih =>
      by_cases hp : (p.1 == k) = true
      · have hpk : p.1 = k := by simpa using hp
        have hp' : (p.1 == k') = false :=
          beq_eq_false_iff_ne.mpr (by rw [hpk]; exact fun e => hne e.symm)
        rw [List.filter_cons, if_neg (by simp [hp]), mapGet_cons_of_neg hp']
        exact ih
      · have hpb : (p.1 == k) = false := by simpa using hp
        rw [List.filter_cons, if_pos (by simp [hpb])]
        by_cases hp' : (p.1 == k') = true
        · rw [mapGet_cons_of_pos hp', mapGet_cons_of_pos hp']
        · have hpb' : (p.1 == k') = false := by simpa using hp'
          rw [mapGet_cons_of_neg hpb', mapGet_cons_of_neg hpb']
          exact ih

lemma nodup_mapSet {m : Registry} {k : Nat} {v : ClientData}
    (h : (m.map Prod.fst).Nodup) : ((mapSet m k v).map Prod.fst).Nodup := by
  unfold mapSet
  by_cases hmem : m.any (fun p => p.1 == k) = true
  · rw [if_pos hmem, List.map_map]
    have : m.map (Prod.fst ∘ fun p => if p.1 == k then (k, v) else p) =
        m.map Prod.fst :=
      List.map_congr_left (fun p _ => mapSet_update_fst k v p)
    rw [this]; exact h
  · rw [if_neg hmem, List.map_append]
    rw [List.nodup_append]
    refine ⟨h, List.nodup_singleton _, ?_⟩
    intro a ha hb
    simp only [List.map_cons, List.map_nil, List.mem_singleton] at hb
    subst hb
    simp only [List.any_eq_true, not_exists, not_and] at hmem
    obtain ⟨p, hp, he⟩ := List.mem_map.1 ha
    exact hmem p hp (beq_iff_eq.mpr he)

lemma nodup_mapDelete {m : Registry} {k : Nat}
    (h : (m.map Prod.fst).Nodup) : ((mapDelete m k).map Prod.fst).Nodup :=
  ((List.filter_sublist m).map Prod.fst).nodup h

/-! ### Broadcast lemmas -/

/-- The condition under which the broadcast loop deletes an entry: socket
OPEN, subscribed to the feed, and `ws.send` threw. -/
def broadcastKills (env : Nat → TransportStatus) (f : ℚ)
    (p : Nat × ClientData) : Bool :=
  (env p.1).isOpen && decide (f ∈ p.2.subscribedFeeds) && !(env p.1).sendOk

/-- The registry surviving a broadcast is exactly the original minus the
entries whose send threw. -/
lemma broadcastLoop_regs (env : Nat → TransportStatus) (f : ℚ)
    (msg : OutMessage) (regs : Registry) :
    (broadcastLoop env f msg regs).2 =
      regs.filter (fun p => !broadcastKills env f p) := by
  induction regs with
  | nil => rfl
  | cons p rest ih =>
      obtain ⟨h, cd⟩ := p
      by_cases ho : (env h).isOpen = true
      · by_cases hm : f ∈ cd.subscribedFeeds
        · by_cases hs : (env h).sendOk = true
          · simp [broadcastLoop, ho, hm, hs, broadcastKills, List.filter_cons, ih]
          · simp [broadcastLoop, ho, hm, Bool.eq_false_iff.2 hs, broadcastKills,
              List.filter_cons, ih,
              show (env h).sendOk = false from Bool.eq_false_iff.2 hs]
        · simp [broadcastLoop, ho, hm, broadcastKills, List.filter_cons, ih]
      · simp [broadcastLoop, Bool.eq_false_iff.2 ho, broadcastKills,
          List.filter_cons, ih,
          show (env h).isOpen = false from Bool.eq_false_iff.2 ho]

/-- The frames a broadcast sends to a given handle correspond exactly to the
registry entries for that handle that are OPEN, subscribed and whose send
succeeds. -/
lemma broadcastLoop_sends (env : Nat → TransportStatus) (f : ℚ)
    (msg : OutMessage) (regs : Registry) (h : Nat) :
    (broadcastLoop env f msg regs).1.filter (fun m => m.1 == h) =
      (regs.filter (fun p => p.1 == h && (env p.1).isOpen &&
        decide (f ∈ p.2.subscribedFeeds) && (env p.1).sendOk)).map
        (fun p => (p.1, msg)) := by
  induction regs with
  | nil => rfl
  | cons p rest ih =>
      obtain ⟨h0, cd⟩ := p
      by_cases ho : (env h0).isOpen = true
      · by_cases hm : f ∈ cd.subscribedFeeds
        · by_cases hs : (env h0).sendOk = true
          · by_cases hk : (h0 == h) = true
            · simp [broadcastLoop, ho, hm, hs, List.filter_cons, hk, ih]
            · simp [broadcastLoop, ho, hm, hs, List.filter_cons, hk, ih]
          · simp [broadcastLoop, ho, hm, Bool.eq_false_iff.2 hs,
              show (env h0).sendOk = false from Bool.eq_false_iff.2 hs,
              List.filter_cons, ih]
        · simp [broadcastLoop, ho, hm, List.filter_cons, ih]
      · simp [broadcastLoop, Bool.eq_false_iff.2 ho,
          show (env h0).isOpen = false from Bool.eq_false_iff.2 ho,
          List.filter_cons, ih]

/-- Every frame produced by the broadcast loop carries the one update
message. -/
lemma broadcastLoop_msg (env : Nat → TransportStatus) (f : ℚ)
    (msg : OutMessage) (regs : Registry) :
    ∀ m ∈ (broadcastLoop env f msg regs).1, m.2 = msg := by
  induction regs with
  | nil => intro m hm; cases hm
  | cons p rest ih =>
      obtain ⟨h0, cd⟩ := p
      intro m hm
      by_cases ho : (env h0).isOpen = true
      · by_cases hmem : f ∈ cd.subscribedFeeds
        · by_cases hs : (env h0).sendOk = true
          · simp only [broadcastLoop, ho, hmem, hs, if_true] at hm
            rcases List.mem_cons.1 hm with rfl | hm'
            · rfl
            · exact ih m hm'
          · simp only [broadcastLoop, ho, hmem, if_true,
              Bool.eq_false_iff.2 hs, if_false] at hm
            exact ih m hm
        · simp only [broadcastLoop, ho, hmem, if_true, if_false] at hm
          exact ih m hm
      · simp only [broadcastLoop, Bool.eq_false_iff.2 ho, if_false] at hm
        exact ih m hm

/-- With distinct keys, the registry entries keyed by a present handle are
exactly that one entry. -/
lemma filter_key_eq_of_nodup {regs : Registry} {h : Nat} {cd : ClientData}
    (hnd : (regs.map Prod.fst).Nodup) (hmem : (h, cd) ∈ regs) :
    regs.filter (fun p => p.1 == h) = [(h, cd)] := by
  induction regs with
  | nil => cases hmem
  | cons p rest ih =>
      simp only [List.map_cons, List.nodup_cons] at hnd
      rcases List.mem_cons.1 hmem with he | hmem'
      · subst he
        have hrest : rest.filter (fun p => p.1 == h) = [] := by
          rw [List.filter_eq_nil_iff]
          intro p hp
          simp only [beq_iff_eq]
          exact fun e => hnd.1 (List.mem_map.2 ⟨p, hp, e⟩)
        simp [List.filter_cons, hrest]
      · have hne : (p.1 == h) = false :=
          beq_eq_false_iff_ne.mpr (fun e =>
            hnd.1 (by rw [e]; exact List.mem_map.2 ⟨(h, cd), hmem', rfl⟩))
        rw [List.filter_cons, if_neg (by simp [hne])]
        exact ih hnd.2 hmem'

/-- With no entry for a handle, no registry entry is keyed by it. -/
lemma filter_key_eq_nil {regs : Registry} {h : Nat}
    (hmem : h ∉ regs.map Prod.fst) :
    regs.filter (fun p => p.1 == h) = [] := by
  rw [List.filter_eq_nil_iff]
  intro p hp
  simp only [beq_iff_eq]
  exact fun e => hmem (List.mem_map.2 ⟨p, hp, e⟩)

/-- Splitting the delivery predicate into key selection and health. -/
lemma filter_sendPred_split (env : Nat → TransportStatus) (f : ℚ)
    (regs : Registry) (h : Nat) :
    regs.filter (fun p => p.1 == h && (env p.1).isOpen &&
        decide (f ∈ p.2.subscribedFeeds) && (env p.1).sendOk) =
      (regs.filter (fun p => p.1 == h)).filter
        (fun p => (env p.1).isOpen && decide (f ∈ p.2.subscribedFeeds) &&
          (env p.1).sendOk) := by
  rw [List.filter_filter]
  apply List.filter_congr
  intro p _
  cases (p.1 == h) <;> cases (env p.1).isOpen <;>
    cases decide (f ∈ p.2.subscribedFeeds) <;> cases (env p.1).sendOk <;> rfl

/-- The frames a broadcast delivers to an open, subscribed, healthy
registered connection: exactly one copy of the update message. -/
lemma broadcast_sends_to_subscriber {env : Nat → TransportStatus}
    {f v : ℚ} {regs : Registry} {h : Nat} {cd : ClientData}
    (hnd : (regs.map Prod.fst).Nodup) (hmem : (h, cd) ∈ regs)
    (ho : (env h).isOpen = true) (hs : (env h).sendOk = true)
    (hf : f ∈ cd.subscribedFeeds) :
    (broadcastPriceUpdate env f v regs).1.filter (fun m => m.1 == h) =
      [(h, priceUpdateMessage f v)] := by
  unfold broadcastPriceUpdate
  rw [broadcastLoop_sends, filter_sendPred_split,
    filter_key_eq_of_nodup hnd hmem]
  simp [List.filter_cons, ho, hs, hf]

/-- A handle with no registry entry receives nothing from a broadcast. -/
lemma broadcast_sends_nothing_to_unknown {env : Nat → TransportStatus}
    {f v : ℚ} {regs : Registry} {h : Nat}
    (hmem : h ∉ regs.map Prod.fst) :
    (broadcastPriceUpdate env f v regs).1.filter (fun m => m.1 == h) = [] := by
  unfold broadcastPriceUpdate
  rw [broadcastLoop_sends, filter_sendPred_split, filter_key_eq_nil hmem]
  rfl

/-!
### C1

The spec's own broadcast contract (its delivery-failure clause is the
subject of C2) presupposes a transport that accepts each send, so the
exactly-once fan-out is stated for states where every registered socket is
OPEN and its send succeeds.
-/

/-- C1: a `publish(feedId, v, t)` call delivers exactly one `priceUpdate`
message to each connection registered with `feedId` in its subscribed set
(none to any other handle), and every delivered frame carries
`updates[0].feedId = feedId` and `updates[0].price` the decimal string of
`v`. -/
theorem publish_delivers_exactly_one
    (env : Nat → TransportStatus) (feedId v : ℚ) (regs : Registry)
    (hnd : (regs.map Prod.fst).Nodup)
    (hok : ∀ p ∈ regs, (env p.1).isOpen = true ∧ (env p.1).sendOk = true) :
    (∀ p ∈ regs, feedId ∈ p.2.subscribedFeeds →
       ((broadcastPriceUpdate env feedId v regs).1.filter
         (fun m => m.1 == p.1)).length = 1) ∧
    (∀ h : Nat, (∀ cd, (h, cd) ∈ regs → feedId ∉ cd.subscribedFeeds) →
       ((broadcastPriceUpdate env feedId v regs).1.filter
         (fun m => m.1 == h)).length = 0) ∧
    (∀ m ∈ (broadcastPriceUpdate env feedId v regs).1,
       m.2 = OutMessage.priceUpdate [(feedId, decimalToString v)]) := by
  refine ⟨?_, ?_, ?_⟩
  · intro p hp hmem
    obtain ⟨h, cd⟩ := p
    rw [broadcast_sends_to_subscriber hnd hp (hok (h, cd) hp).1
      (hok (h, cd) hp).2 hmem]
    rfl
  · intro h hnone
    unfold broadcastPriceUpdate
    rw [broadcastLoop_sends]
    have hfil : regs.filter (fun p => p.1 == h && (env p.1).isOpen &&
        decide (feedId ∈ p.2.subscribedFeeds) && (env p.1).sendOk) = [] := by
      rw [List.filter_eq_nil_iff]
      intro p hp hpred
      simp only [Bool.and_eq_true, decide_eq_true_eq] at hpred
      obtain ⟨⟨⟨hkey, _⟩, hm⟩, _⟩ := hpred
      have hpe : p.1 = h := by simpa using hkey
      exact hnone p.2 (by rw [← hpe]; exact hp) hm
    rw [hfil]
    rfl
  · intro m hm
    exact broadcastLoop_msg _ _ _ _ m hm

/-- Witness for C1 at a concrete state: two registered open connections,
one subscribed to feed 6; the broadcast delivers exactly one frame to it. -/
theorem publish_delivers_exactly_one_witness :
    ((broadcastPriceUpdate (fun _ => ⟨true, true⟩) 6 200
        [(0, ⟨1, {6}⟩), (1, ⟨2, ∅⟩)]).1.filter
      (fun m => m.1 == 0)).length = 1 :=
  (publish_delivers_exactly_one (fun _ => ⟨true, true⟩) 6 200
      [(0, ⟨1, {6}⟩), (1, ⟨2, ∅⟩)]
      (by simp)
      (fun p _ => ⟨rfl, rfl⟩)).1
    (0, ⟨1, {6}⟩) (List.mem_cons_self _ _) (Finset.mem_singleton_self 6)

/-!
### C2

The claim also asserts that a connection *found closed* during delivery is
unregistered.  The code only deletes an entry when `ws.send` throws; an
entry whose `readyState` is not OPEN is skipped and kept
(`src/index.js:57,63`), so that part of the claim is false.
-/

/-- C2 counterexample: a registered connection subscribed to feed 6 whose
socket is closed (readyState ≠ OPEN) receives nothing during the broadcast
— yet it is NOT removed from the registry, contradicting the claim that a
connection found closed during delivery is unregistered. -/
theorem broadcast_keeps_closed_connection :
    (broadcastPriceUpdate (fun _ => ⟨false, true⟩) 6 200 [(0, ⟨1, {6}⟩)]).2
      = [(0, ⟨1, {6}⟩)] ∧
    (broadcastPriceUpdate (fun _ => ⟨false, true⟩) 6 200 [(0, ⟨1, {6}⟩)]).1
      = [] := ⟨rfl, rfl⟩

/-- C2 (amended): during a broadcast, (i) a connection whose send throws is
removed from the registry, receives nothing, and receives nothing from any
subsequent broadcast; (ii) every other connection stays registered (in
particular a closed one, which is skipped, not pruned); (iii) delivery
still proceeds to every open, subscribed connection whose send succeeds,
independently of failures elsewhere; (iv) a closed connection receives
nothing. -/
theorem broadcast_failure_pruning
    (env : Nat → TransportStatus) (feedId v : ℚ) (regs : Registry)
    (hnd : (regs.map Prod.fst).Nodup) :
    (∀ p ∈ regs, (env p.1).isOpen = true → feedId ∈ p.2.subscribedFeeds →
       (env p.1).sendOk = false →
       (p ∉ (broadcastPriceUpdate env feedId v regs).2 ∧
        (broadcastPriceUpdate env feedId v regs).1.filter
          (fun m => m.1 == p.1) = [] ∧
        ∀ env2 f2 v2, (broadcastPriceUpdate env2 f2 v2
            (broadcastPriceUpdate env feedId v regs).2).1.filter
          (fun m => m.1 == p.1) = [])) ∧
    (∀ p ∈ regs, ¬((env p.1).isOpen = true ∧ feedId ∈ p.2.subscribedFeeds ∧
        (env p.1).sendOk = false) →
       p ∈ (broadcastPriceUpdate env feedId v regs).2) ∧
    (∀ p ∈ regs, (env p.1).isOpen = true → (env p.1).sendOk = true →
       feedId ∈ p.2.subscribedFeeds →
       ((broadcastPriceUpdate env feedId v regs).1.filter
         (fun m => m.1 == p.1)).length = 1) ∧
    (∀ p ∈ regs, (env p.1).isOpen = false →
       (broadcastPriceUpdate env feedId v regs).1.filter
         (fun m => m.1 == p.1) = []) := by
  have hregs : (broadcastPriceUpdate env feedId v regs).2 =
      regs.filter (fun p => !broadcastKills env feedId p) := by
    unfold broadcastPriceUpdate
    exact broadcastLoop_regs env feedId (priceUpdateMessage feedId v) regs
  refine ⟨?_, ?_, ?_, ?_⟩
  · intro p hp ho hm hs
    have hkills : broadcastKills env feedId p = true := by
      simp [broadcastKills, ho, hm, hs]
    refine ⟨?_, ?_, ?_⟩
    · rw [hregs]
      intro hmem'
      have := (List.mem_filter.1 hmem').2
      rw [hkills] at this
      cases this
    · unfold broadcastPriceUpdate
      rw [broadcastLoop_sends, filter_sendPred_split,
        filter_key_eq_of_nodup hnd (show (p.1, p.2) ∈ regs from hp)]
      simp [List.filter_cons, hs]
    · intro env2 f2 v2
      apply broadcast_sends_nothing_to_unknown
      rw [hregs]
      intro hmem'
      obtain ⟨q, hq, he⟩ := List.mem_map.1 hmem'
      have hq' := List.mem_filter.1 hq
      have hqregs : (p.1, q.2) ∈ regs := by
        rw [← he]
        exact hq'.1
      have : q = (p.1, p.2) := by
        have h1 := filter_key_eq_of_nodup hnd (show (p.1, p.2) ∈ regs from hp)
        have h2 : q ∈ regs.filter (fun r => r.1 == p.1) :=
          List.mem_filter.2 ⟨hq'.1, by simp [he]⟩
        rw [h1] at h2
        simpa using h2
      rw [this] at hq'
      have := hq'.2
      rw [hkills] at this
      cases this
  · intro p hp hng
    rw [hregs]
    refine List.mem_filter.2 ⟨hp, ?_⟩
    by_cases ho : (env p.1).isOpen = true
    · by_cases hm : feedId ∈ p.2.subscribedFeeds
      · have hs : (env p.1).sendOk = true := by
          by_contra hs'
          exact hng ⟨ho, hm, Bool.eq_false_iff.2 hs' ▸ rfl⟩
        simp [broadcastKills, ho, hm, hs]
      · simp [broadcastKills, hm]
    · simp [broadcastKills, Bool.eq_false_iff.2 ho]
  · intro p hp ho hs hm
    obtain ⟨h, cd⟩ := p
    rw [broadcast_sends_to_subscriber hnd hp ho hs hm]
    rfl
  · intro p hp ho
    unfold broadcastPriceUpdate
    rw [broadcastLoop_sends, filter_sendPred_split,
      filter_key_eq_of_nodup hnd (show (p.1, p.2) ∈ regs from hp)]
    simp [List.filter_cons, ho]

/-! ### Subscribe / unsubscribe loop characterizations -/

lemma getProp_feedId_ok {el : JsVal} (h1 : el ≠ .null) (h2 : el ≠ .undefined) :
    ∃ v, getProp el "feedId" = .ok v := by
  cases el with
  | null => exact absurd rfl h1
  | undefined => exact absurd rfl h2
  | bool b => exact ⟨_, rfl⟩
  | num q => exact ⟨_, rfl⟩
  | str s => exact ⟨_, rfl⟩
  | arr l => exact ⟨_, rfl⟩
  | obj l => exact ⟨_, rfl⟩

/-- On a batch without `null`/`undefined` elements the subscribe loop does
not throw, ends with the union of the old set and the accepted ids, acks
the accepted ids in processing order, and sends exactly the snapshots of
the accepted ids that have a current price, in processing order. -/
lemma subLoop_spec (prices : List (ℚ × ℚ)) :
    ∀ (elems : List JsVal) (feeds : Finset ℚ),
      (∀ el ∈ elems, el ≠ JsVal.null ∧ el ≠ JsVal.undefined) →
      subLoop prices feeds elems =
        (false, feeds ∪ (acceptedIds elems).toFinset, acceptedIds elems,
         expectedSnapshots prices elems)
  | [], feeds, _ => by
      simp [subLoop, acceptedIds, expectedSnapshots]
  | el :: rest, feeds, hnn => by
      obtain ⟨v, hv⟩ := getProp_feedId_ok (hnn el (List.mem_cons_self _ _)).1
        (hnn el (List.mem_cons_self _ _)).2
      have hrest : ∀ e ∈ rest, e ≠ JsVal.null ∧ e ≠ JsVal.undefined :=
        fun e he => hnn e (List.mem_cons_of_mem _ he)
      cases hacc : feedIdAccept v with
      | some q =>
          have haccl : acceptedIds (el :: rest) = q :: acceptedIds rest := by
            simp [acceptedIds, List.filterMap_cons, hv, hacc]
          have hsnap : expectedSnapshots prices (el :: rest) =
              (match priceLookup prices q with
               | some p => [priceUpdateMessage q p]
               | none => []) ++ expectedSnapshots prices rest := by
            unfold expectedSnapshots
            rw [haccl, List.filterMap_cons]
            cases priceLookup prices q <;> simp
          have hfin : feeds ∪ (acceptedIds (el :: rest)).toFinset =
              insert q feeds ∪ (acceptedIds rest).toFinset := by
            rw [haccl, List.toFinset_cons, Finset.union_insert,
              Finset.insert_union]
          simp only [subLoop, hv, hacc]
          rw [subLoop_spec prices rest (insert q feeds) hrest,
            hsnap, hfin, haccl]
      | none =>
          have haccl : acceptedIds (el :: rest) = acceptedIds rest := by
            simp [acceptedIds, List.filterMap_cons, hv, hacc]
          have hsnap : expectedSnapshots prices (el :: rest) =
              expectedSnapshots prices rest := by
            unfold expectedSnapshots
            rw [haccl]
          simp only [subLoop, hv, hacc]
          rw [subLoop_spec prices rest feeds hrest, haccl, hsnap]

/-- The subscribe loop only ever grows the feed set, crash or not. -/
lemma subLoop_mono (prices : List (ℚ × ℚ)) :
    ∀ (elems : List JsVal) (feeds : Finset ℚ),
      feeds ⊆ (subLoop prices feeds elems).2.1
  | [], feeds => by simp [subLoop]
  | el :: rest, feeds => by
      cases hv : getProp el "feedId" with
      | error e => simp [subLoop, hv]
      | ok v =>
          cases hacc : feedIdAccept v with
          | some q =>
              simp only [subLoop, hv, hacc]
              exact (Finset.subset_insert q feeds).trans
                (subLoop_mono prices rest (insert q feeds))
          | none =>
              simp only [subLoop, hv, hacc]
              exact subLoop_mono prices rest feeds

/-- The unsubscribe loop removes exactly the listed numbers from the set,
and acknowledges each removed id exactly once: membership in the ack list
is equivalent to having been present and listed, and the ack never repeats
an id. -/
lemma unsubLoop_spec :
    ∀ (elems : List JsVal) (feeds : Finset ℚ),
      (unsubLoop feeds elems).1 = feeds.filter (fun q => !listedNum elems q) ∧
      (unsubLoop feeds elems).2.Nodup ∧
      ∀ q : ℚ, q ∈ (unsubLoop feeds elems).2 ↔
        q ∈ feeds ∧ listedNum elems q = true
  | [], feeds => by
      constructor
      · rw [unsubLoop]
        have : ∀ q ∈ feeds, (!listedNum [] q) = true := by
          intro q _
          rfl
        rw [Finset.filter_true_of_mem this]
      · simp [unsubLoop, listedNum]
  | el :: rest, feeds => by
      have hlist : ∀ x : ℚ, listedNum (el :: rest) x =
          ((match asNum el with
            | some q' => q' == x
            | none => false) || listedNum rest x) := by
        intro x
        simp [listedNum, List.any_cons]
      cases hn : asNum el with
      | some q =>
          by_cases hq : q ∈ feeds
          · obtain ⟨ih1, ih2, ih3⟩ := unsubLoop_spec rest (feeds.erase q)
            refine ⟨?_, ?_, ?_⟩
            · simp only [unsubLoop, hn, if_pos hq, ih1]
              ext x
              simp only [Finset.mem_filter, Finset.mem_erase, hlist, hn,
                Bool.not_eq_true', Bool.or_eq_false_iff, beq_eq_false_iff_ne]
              constructor
              · rintro ⟨⟨hxq, hxf⟩, hl⟩
                exact ⟨hxf, fun e => hxq e.symm, hl⟩
              · rintro ⟨hxf, hxq, hl⟩
                exact ⟨⟨fun e => hxq e.symm, hxf⟩, hl⟩
            · simp only [unsubLoop, hn, if_pos hq]
              refine List.nodup_cons.2 ⟨?_, ih2⟩
              intro hqmem
              exact absurd ((ih3 q).1 hqmem).1 (by simp)
            · intro x
              simp only [unsubLoop, hn, if_pos hq, List.mem_cons, ih3,
                Finset.mem_erase, hlist, Bool.or_eq_true, beq_iff_eq]
              constructor
              · rintro (rfl | ⟨⟨hxq, hxf⟩, hl⟩)
                · exact ⟨hq, Or.inl rfl⟩
                · exact ⟨hxf, Or.inr hl⟩
              · rintro ⟨hxf, (rfl | hl)⟩
                · exact Or.inl rfl
                · by_cases hxq : x = q
                  · exact Or.inl hxq
                  · exact Or.inr ⟨⟨hxq, hxf⟩, hl⟩
          · obtain ⟨ih1, ih2, ih3⟩ := unsubLoop_spec rest feeds
            refine ⟨?_, ?_, ?_⟩
            · simp only [unsubLoop, hn, if_neg hq, ih1]
              apply Finset.filter_congr
              intro x hx
              simp only [hlist, hn, Bool.not_eq_true', Bool.or_eq_false_iff,
                beq_eq_false_iff_ne, iff_and_self]
              intro _
              exact fun e => hq (e ▸ hx)
            · simpa only [unsubLoop, hn, if_neg hq] using ih2
            · intro x
              simp only [unsubLoop, hn, if_neg hq, ih3, hlist,
                Bool.or_eq_true, beq_iff_eq]
              constructor
              · rintro ⟨hxf, hl⟩
                exact ⟨hxf, Or.inr hl⟩
              · rintro ⟨hxf, (rfl | hl)⟩
                · exact absurd hxf hq
                · exact ⟨hxf, hl⟩
      | none =>
          obtain ⟨ih1, ih2, ih3⟩ := unsubLoop_spec rest feeds
          refine ⟨?_, ?_, ?_⟩
          · simp only [unsubLoop, hn, ih1]
            apply Finset.filter_congr
            intro x _
            simp [hlist, hn]
          · simpa only [unsubLoop, hn] using ih2
          · intro x
            simp only [unsubLoop, hn, ih3]
            simp [hlist, hn]

/-- A value with one readable property has all properties readable (only
`null`/`undefined` throw). -/
lemma getProp_ok_of_ok {m : JsVal} {k k' : String} {v : JsVal}
    (h : getProp m k = .ok v) : ∃ w, getProp m k' = .ok w := by
  cases m with
  | null => cases h
  | undefined => cases h
  | bool b => exact ⟨_, rfl⟩
  | num q => exact ⟨_, rfl⟩
  | str s => exact ⟨_, rfl⟩
  | arr l => exact ⟨_, rfl⟩
  | obj l => exact ⟨_, rfl⟩

/-- Full characterization of `handleSubscription` on a registered
connection, an array batch, and no throwing (`null`/`undefined`) elements:
state update, frames sent and their order, no crash. -/
lemma handleSubscription_spec {st : ServerState} {wsH : Nat}
    {cd : ClientData} {message : JsVal} {elems : List JsVal}
    (hreg : mapGet st.subscriptions wsH = some cd)
    (harr : getProp message "subscriptions" = .ok (.arr elems))
    (hnn : ∀ el ∈ elems, el ≠ JsVal.null ∧ el ≠ JsVal.undefined) :
    ∃ sidv, getProp message "subscriptionId" = .ok sidv ∧
      handleSubscription st wsH message =
        ⟨⟨mapSet st.subscriptions wsH
            ⟨cd.id, cd.subscribedFeeds ∪ (acceptedIds elems).toFinset⟩,
          st.connectionId, st.currentPrices⟩,
         expectedSnapshots st.currentPrices elems ++
           [.subscribed (if truthy sidv then sidv else .null)
             (acceptedIds elems)],
         false⟩ := by
  obtain ⟨sidv, hsid⟩ :=
    (getProp_ok_of_ok harr : ∃ w, getProp message "subscriptionId" = .ok w)
  refine ⟨sidv, hsid, ?_⟩
  simp only [handleSubscription, hreg, harr, hsid,
    subLoop_spec st.currentPrices elems cd.subscribedFeeds hnn]
  simp

/-- Witness for C2 (amended) at a concrete state: handle 0's send throws,
handle 1 is healthy; handle 0 is pruned and handle 1 still gets its frame. -/
theorem broadcast_failure_pruning_witness :
    (0, (⟨1, {6}⟩ : ClientData)) ∉
      (broadcastPriceUpdate (fun h => ⟨true, h == 1⟩) 6 200
        [(0, ⟨1, {6}⟩), (1, ⟨2, {6}⟩)]).2 ∧
    ((broadcastPriceUpdate (fun h => ⟨true, h == 1⟩) 6 200
        [(0, ⟨1, {6}⟩), (1, ⟨2, {6}⟩)]).1.filter
      (fun m => m.1 == 1)).length = 1 :=
  ⟨((broadcast_failure_pruning (fun h => ⟨true, h == 1⟩) 6 200
        [(0, ⟨1, {6}⟩), (1, ⟨2, {6}⟩)] (by simp)).1
      (0, ⟨1, {6}⟩) (List.mem_cons_self _ _) rfl
      (Finset.mem_singleton_self 6) rfl).1,
   (broadcast_failure_pruning (fun h => ⟨true, h == 1⟩) 6 200
        [(0, ⟨1, {6}⟩), (1, ⟨2, {6}⟩)] (by simp)).2.2.1
      (1, ⟨2, {6}⟩) (by simp) rfl rfl (Finset.mem_singleton_self 6)⟩

/-!
### C3

The subscribe guard is `sub.feedId && typeof sub.feedId === 'number'`
(`src/index.js:159`): any truthy number passes, so negative and fractional
feed ids are accepted, not only positive integers.  Also, a `null` batch
element makes `sub.feedId` throw, aborting the rest of the batch (caught
upstream as "Invalid JSON format"), so such elements are not silently
skipped.
-/

/-- An id is accepted exactly when some element's `feedId` property holds a
truthy number with that value. -/
lemma mem_acceptedIds {elems : List JsVal} {q : ℚ} :
    q ∈ acceptedIds elems ↔
      ∃ el ∈ elems, ∃ v, getProp el "feedId" = .ok v ∧
        truthy v = true ∧ v = .num q := by
  simp only [acceptedIds, List.mem_filterMap]
  constructor
  · rintro ⟨el, hel, hacc⟩
    cases hv : getProp el "feedId" with
    | error e => rw [hv] at hacc; cases hacc
    | ok v =>
        rw [hv] at hacc
        obtain ⟨ht, he⟩ := feedIdAccept_eq_some.1 hacc
        exact ⟨el, hel, v, hv, ht, he⟩
  · rintro ⟨el, hel, v, hv, ht, rfl⟩
    refine ⟨el, hel, ?_⟩
    rw [hv]
    exact feedIdAccept_eq_some.2 ⟨ht, rfl⟩

/-- The registered state and subscribe request used to refute C3. -/
def cexState : ServerState := ⟨[(0, ⟨1, ∅⟩)], 1, [(6, 24567 / 100)]⟩

/-- `{"type":"subscribe","subscriptions":[{"feedId":-5}]}`. -/
def cexNegMsg : JsVal :=
  .obj [("type", .str "subscribe"),
        ("subscriptions", .arr [.obj [("feedId", .num (-5))]])]

/-- C3 counterexample: the element `{"feedId":-5}` carries no syntactically
valid (positive-integer) feed id, yet `-5` is added to the connection's
feed set and acknowledged — so it is not the case that exactly the valid
elements are accepted. -/
theorem subscribe_accepts_invalid_feed_id :
    (mapGet (handleSubscription cexState 0 cexNegMsg).state.subscriptions
        0).map ClientData.subscribedFeeds = some {-5} ∧
    (handleSubscription cexState 0 cexNegMsg).sent =
      [.subscribed .null [-5]] ∧
    ¬ ValidFeedId (-5) := by
  refine ⟨by decide, rfl, by decide⟩

/-- C3 (amended): on a registered connection whose `subscriptions` field is
an array with no `null` elements, exactly the elements whose `feedId`
property is a truthy number (any nonzero number, not only positive
integers) have their id added to the feed set and acknowledged in
processing order; the other elements are silently skipped (the handler
neither crashes nor sends any error frame, and the whole batch is acked);
re-listing an already subscribed id leaves the set unchanged at that id
(union semantics) while still being acknowledged.  (A `null` element would
instead throw and abort the rest of the batch, hence the hypothesis.) -/
theorem subscribe_accepts_truthy_numbers {st : ServerState} {wsH : Nat}
    {cd : ClientData} {message : JsVal} {elems : List JsVal}
    (hreg : mapGet st.subscriptions wsH = some cd)
    (harr : getProp message "subscriptions" = .ok (.arr elems))
    (hnn : ∀ el ∈ elems, el ≠ JsVal.null ∧ el ≠ JsVal.undefined) :
    (handleSubscription st wsH message).crashed = false ∧
    (mapGet (handleSubscription st wsH message).state.subscriptions
        wsH).map ClientData.subscribedFeeds =
      some (cd.subscribedFeeds ∪ (acceptedIds elems).toFinset) ∧
    (∃ sid, (handleSubscription st wsH message).sent.getLast? =
        some (.subscribed sid (acceptedIds elems))) ∧
    (∀ q : ℚ, q ∈ acceptedIds elems ↔
        ∃ el ∈ elems, ∃ v, getProp el "feedId" = .ok v ∧
          truthy v = true ∧ v = .num q) ∧
    (∀ m ∈ (handleSubscription st wsH message).sent, ∀ s, m ≠ .error s) := by
  obtain ⟨sidv, _, heq⟩ := handleSubscription_spec hreg harr hnn
  rw [heq]
  refine ⟨rfl, ?_, ?_, ?_, ?_⟩
  · rw [mapGet_mapSet_self]
    rfl
  · refine ⟨if truthy sidv then sidv else .null, ?_⟩
    simp
  · exact fun q => mem_acceptedIds
  · intro m hm s
    rcases List.mem_append.1 hm with hm' | hm'
    · obtain ⟨q, _, he⟩ := List.mem_filterMap.1 hm'
      cases hlook : priceLookup st.currentPrices q with
      | none => rw [hlook] at he; cases he
      | some p =>
          rw [hlook] at he
          have hme : priceUpdateMessage q p = m := Option.some_inj.1 he
          rw [← hme]
          intro hcontra
          simp [priceUpdateMessage] at hcontra
    · have hme : m = .subscribed (if truthy sidv then sidv else .null)
          (acceptedIds elems) := by simpa using hm'
      rw [hme]
      intro hcontra
      cases hcontra

/-- `{"type":"subscribe","subscriptions":[{"feedId":6},{"feedId":0},"x"]}`. -/
def subMixedMsg : JsVal :=
  .obj [("type", .str "subscribe"),
        ("subscriptions", .arr [.obj [("feedId", .num 6)],
                                .obj [("feedId", .num 0)],
                                .str "x"])]

/-- Witness for C3 (amended): a request with elements `{feedId:6}`,
`{feedId:0}` and `"x"` neither crashes nor partially errors. -/
theorem subscribe_accepts_truthy_numbers_witness :
    (handleSubscription cexState 0 subMixedMsg).crashed = false :=
  (@subscribe_accepts_truthy_numbers cexState 0 ⟨1, ∅⟩ subMixedMsg
    [.obj [("feedId", .num 6)], .obj [("feedId", .num 0)], .str "x"]
    rfl rfl
    (by intro el hel
        simp only [List.mem_cons, List.not_mem_nil, or_false] at hel
        rcases hel with rfl | rfl | rfl <;>
          exact ⟨fun h => JsVal.noConfusion h,
                 fun h => JsVal.noConfusion h⟩)).1

/-! ### C4 -/

/-- C4: during a subscribe request (registered connection, array batch, no
throwing elements), the frames sent are exactly the snapshots of the
accepted feed ids that have a current price followed by the `subscribed`
confirmation; hence every accepted id with a current `FeedState` value gets
a single-feed `priceUpdate` before the confirmation, and an accepted id
with no current value triggers no snapshot at all. -/
theorem subscribe_snapshot_before_ack {st : ServerState} {wsH : Nat}
    {cd : ClientData} {message : JsVal} {elems : List JsVal} {sidv : JsVal}
    (hreg : mapGet st.subscriptions wsH = some cd)
    (harr : getProp message "subscriptions" = .ok (.arr elems))
    (hnn : ∀ el ∈ elems, el ≠ JsVal.null ∧ el ≠ JsVal.undefined)
    (hsid : getProp message "subscriptionId" = .ok sidv) :
    (handleSubscription st wsH message).sent =
      expectedSnapshots st.currentPrices elems ++
        [.subscribed (if truthy sidv then sidv else .null)
          (acceptedIds elems)] ∧
    (∀ q ∈ acceptedIds elems, ∀ p, priceLookup st.currentPrices q = some p →
       priceUpdateMessage q p ∈
         (handleSubscription st wsH message).sent.dropLast) ∧
    (∀ q ∈ acceptedIds elems, priceLookup st.currentPrices q = none →
       ∀ s, OutMessage.priceUpdate [(q, s)] ∉
         (handleSubscription st wsH message).sent) := by
  obtain ⟨sidv', hsid', heq⟩ := handleSubscription_spec hreg harr hnn
  have hse : sidv' = sidv := by
    rw [hsid] at hsid'
    exact Except.ok.inj hsid'.symm
  rw [hse] at heq
  rw [heq]
  refine ⟨rfl, ?_, ?_⟩
  · intro q hq p hlook
    rw [List.dropLast_concat]
    exact List.mem_filterMap.2 ⟨q, hq, by rw [hlook]; rfl⟩
  · intro q hq hlook s hmem
    rcases List.mem_append.1 hmem with hm' | hm'
    · obtain ⟨q', _, he⟩ := List.mem_filterMap.1 hm'
      cases hlook' : priceLookup st.currentPrices q' with
      | none => rw [hlook'] at he; cases he
      | some p' =>
          rw [hlook'] at he
          have := Option.some_inj.1 he
          simp only [priceUpdateMessage, OutMessage.priceUpdate.injEq,
            List.cons.injEq, Prod.mk.injEq] at this
          rw [this.1.1] at hlook'
          rw [hlook] at hlook'
          cases hlook'
    · simp at hm'

/-- `{"type":"subscribe","subscriptions":[{"feedId":6}]}` (no
subscriptionId). -/
def subSixMsg : JsVal :=
  .obj [("type", .str "subscribe"),
        ("subscriptions", .arr [.obj [("feedId", .num 6)]])]

/-- The batch of `subSixMsg`. -/
def subSixElems : List JsVal := [.obj [("feedId", .num 6)]]

lemma subSixElems_nonnull :
    ∀ el ∈ subSixElems, el ≠ JsVal.null ∧ el ≠ JsVal.undefined := by
  intro el hel
  simp only [subSixElems, List.mem_singleton] at hel
  subst hel
  exact ⟨fun h => JsVal.noConfusion h, fun h => JsVal.noConfusion h⟩

/-- Witness for C4: subscribing to feed 6 (which has a current price) sends
the snapshot and then the confirmation. -/
theorem subscribe_snapshot_before_ack_witness :
    (handleSubscription cexState 0 subSixMsg).sent =
      expectedSnapshots cexState.currentPrices subSixElems ++
        [.subscribed (if truthy .undefined then .undefined else .null)
          (acceptedIds subSixElems)] :=
  (@subscribe_snapshot_before_ack cexState 0 ⟨1, ∅⟩ subSixMsg subSixElems
    .undefined rfl rfl subSixElems_nonnull rfl).1

/-! ### C10 -/

/-- C10: the `subscribed` acknowledgment echoes the request's
`subscriptionId` exactly when that value is truthy; for every falsy value
(0, "", false, null, or an absent field, which reads as undefined) the
acknowledgment carries null instead. -/
theorem subscribe_ack_subscription_id {st : ServerState} {wsH : Nat}
    {cd : ClientData} {message : JsVal} {elems : List JsVal} {sidv : JsVal}
    (hreg : mapGet st.subscriptions wsH = some cd)
    (harr : getProp message "subscriptions" = .ok (.arr elems))
    (hnn : ∀ el ∈ elems, el ≠ JsVal.null ∧ el ≠ JsVal.undefined)
    (hsid : getProp message "subscriptionId" = .ok sidv) :
    (truthy sidv = true →
      (handleSubscription st wsH message).sent.getLast? =
        some (.subscribed sidv (acceptedIds elems))) ∧
    (truthy sidv = false →
      (handleSubscription st wsH message).sent.getLast? =
        some (.subscribed .null (acceptedIds elems))) := by
  obtain ⟨sidv', hsid', heq⟩ := handleSubscription_spec hreg harr hnn
  have hse : sidv' = sidv := by
    rw [hsid] at hsid'
    exact Except.ok.inj hsid'.symm
  rw [hse] at heq
  rw [heq]
  constructor
  · intro ht
    rw [if_pos ht]
    simp
  · intro hf
    rw [if_neg (by simp [hf])]
    simp

/-- `{"type":"subscribe","subscriptionId":0,"subscriptions":[{"feedId":6}]}`
— a falsy (zero) subscriptionId. -/
def subZeroIdMsg : JsVal :=
  .obj [("type", .str "subscribe"),
        ("subscriptionId", .num 0),
        ("subscriptions", .arr [.obj [("feedId", .num 6)]])]

/-- Witness for C10: a request carrying `subscriptionId: 0` is acknowledged
with `subscriptionId: null`. -/
theorem subscribe_ack_subscription_id_witness :
    (handleSubscription cexState 0 subZeroIdMsg).sent.getLast? =
      some (.subscribed .null (acceptedIds subSixElems)) :=
  (@subscribe_ack_subscription_id cexState 0 ⟨1, ∅⟩ subZeroIdMsg subSixElems
    (.num 0) rfl rfl subSixElems_nonnull rfl).2 rfl

/-! ### C5 -/

/-- C5: an unsubscribe request on a registered connection with `feedIds` an
array removes exactly the listed numbers from the connection's feed set,
and the `unsubscribed` acknowledgment lists exactly the ids actually
removed — each once, and an id is listed iff it was both subscribed and
requested (ids not in the set are omitted). -/
theorem unsubscribe_removes_exactly_present {st : ServerState} {wsH : Nat}
    {cd : ClientData} {message : JsVal} {elems : List JsVal}
    (hreg : mapGet st.subscriptions wsH = some cd)
    (harr : getProp message "feedIds" = .ok (.arr elems)) :
    (handleUnsubscription st wsH message).crashed = false ∧
    (mapGet (handleUnsubscription st wsH message).state.subscriptions
        wsH).map ClientData.subscribedFeeds =
      some (cd.subscribedFeeds.filter (fun q => !listedNum elems q)) ∧
    ∃ ackL, (handleUnsubscription st wsH message).sent =
        [.unsubscribed ackL] ∧
      ackL.Nodup ∧
      ∀ q : ℚ, q ∈ ackL ↔ q ∈ cd.subscribedFeeds ∧ listedNum elems q = true := by
  obtain ⟨h1, h2, h3⟩ := unsubLoop_spec elems cd.subscribedFeeds
  refine ⟨?_, ?_, ?_⟩
  · simp only [handleUnsubscription, hreg, harr]
  · simp only [handleUnsubscription, hreg, harr]
    rw [mapGet_mapSet_self, h1]
    rfl
  · refine ⟨(unsubLoop cd.subscribedFeeds elems).2, ?_, h2, h3⟩
    simp only [handleUnsubscription, hreg, harr]

/-- State with connection 0 subscribed to feed 6 only. -/
def unsubState : ServerState := ⟨[(0, ⟨1, {6}⟩)], 1, [(6, 24567 / 100)]⟩

/-- `{"type":"unsubscribe","feedIds":[6,99]}`. -/
def unsubMsg : JsVal :=
  .obj [("type", .str "unsubscribe"),
        ("feedIds", .arr [.num 6, .num 99])]

/-- Witness for C5: unsubscribing `[6,99]` with only 6 subscribed removes 6
and acknowledges only 6 (the spec's own scenario). -/
theorem unsubscribe_removes_exactly_present_witness :
    (handleUnsubscription unsubState 0 unsubMsg).crashed = false ∧
    (handleUnsubscription unsubState 0 unsubMsg).sent =
      [.unsubscribed [6]] := by
  obtain ⟨h1, _, ackL, hack, _, hiff⟩ :=
    @unsubscribe_removes_exactly_present unsubState 0 ⟨1, {6}⟩ unsubMsg
      [.num 6, .num 99] rfl rfl
  refine ⟨h1, ?_⟩
  have : ackL = [6] := by
    have := hack
    rw [show (handleUnsubscription unsubState 0 unsubMsg).sent =
      [.unsubscribed [6]] from rfl] at this
    simpa using this.symm
  rw [hack, this]

/-! ### C6 -/

/-- C6: a subscribe (resp. unsubscribe) request on a registered connection
whose `subscriptions` (resp. `feedIds`) field is missing or not a list
draws exactly one error frame and leaves the whole server state untouched;
this is a request-format error, distinct from the silent per-element
filtering. -/
theorem malformed_feed_list_single_error (st : ServerState) (wsH : Nat)
    (message : JsVal) :
    (∀ cd v, mapGet st.subscriptions wsH = some cd →
       getProp message "subscriptions" = .ok v → isArr v = false →
       handleSubscription st wsH message =
         ⟨st, [.error "Invalid subscription format"], false⟩) ∧
    (∀ cd v, mapGet st.subscriptions wsH = some cd →
       getProp message "feedIds" = .ok v → isArr v = false →
       handleUnsubscription st wsH message =
         ⟨st, [.error "Invalid unsubscription format"], false⟩) := by
  constructor
  · intro cd v hreg hv harr
    simp only [handleSubscription, hreg, hv]
    cases v with
    | arr l => cases harr
    | null => rfl
    | undefined => rfl
    | bool b => rfl
    | num q => rfl
    | str s => rfl
    | obj l => rfl
  · intro cd v hreg hv harr
    simp only [handleUnsubscription, hreg, hv]
    cases v with
    | arr l => cases harr
    | null => rfl
    | undefined => rfl
    | bool b => rfl
    | num q => rfl
    | str s => rfl
    | obj l => rfl

/-- Witness for C6: a subscribe request whose `subscriptions` field is the
number 5 gets a single error frame and no state change. -/
theorem malformed_feed_list_single_error_witness :
    handleSubscription cexState 0
        (.obj [("type", .str "subscribe"), ("subscriptions", .num 5)]) =
      ⟨cexState, [.error "Invalid subscription format"], false⟩ :=
  (malformed_feed_list_single_error cexState 0
      (.obj [("type", .str "subscribe"), ("subscriptions", .num 5)])).1
    ⟨1, ∅⟩ (.num 5) rfl rfl rfl

/-! ### C9 -/

/-- C9: a subscribe or unsubscribe request (indeed any client message)
arriving on a handle that is not in the registry is a silent no-op — the
state is unchanged and nothing is sent, at the dispatcher level and inside
each handler. -/
theorem unknown_handle_silent_noop (st : ServerState) (wsH : Nat)
    (message : JsVal)
    (h : mapGet st.subscriptions wsH = none) :
    handleClientMessage st wsH message = ⟨st, [], false⟩ ∧
    handleSubscription st wsH message = ⟨st, [], false⟩ ∧
    handleUnsubscription st wsH message = ⟨st, [], false⟩ ∧
    step st (.clientMessage wsH (some message)) = (st, []) := by
  have h1 : handleClientMessage st wsH message = ⟨st, [], false⟩ := by
    simp only [handleClientMessage, h]
  refine ⟨h1, ?_, ?_, ?_⟩
  · simp only [handleSubscription, h]
  · simp only [handleUnsubscription, h]
  · simp only [step, h1]
    rfl

/-- Witness for C9: a subscribe on the empty registry does nothing. -/
theorem unknown_handle_silent_noop_witness :
    handleClientMessage initialState 5 subSixMsg =
      ⟨initialState, [], false⟩ :=
  (unknown_handle_silent_noop initialState 5 subSixMsg rfl).1

/-! ### C8 -/

/-- C8: `unregister` — the `subscriptions.delete(ws)` performed by the
`close` and `error` handlers — is idempotent: after one removal, a second
close or error event for the same handle leaves the registry state exactly
as it was and produces no outbound frame (same observable effects as
calling it once). -/
theorem unregister_idempotent (st : ServerState) (h : Nat) :
    step (step st (.close h)).1 (.close h) = ((step st (.close h)).1, []) ∧
    step (step st (.socketError h)).1 (.socketError h) =
      ((step st (.socketError h)).1, []) ∧
    step (step st (.close h)).1 (.socketError h) =
      ((step st (.close h)).1, []) ∧
    step (step st (.socketError h)).1 (.close h) =
      ((step st (.socketError h)).1, []) := by
  have hdel : ∀ m : Registry, mapDelete (mapDelete m h) h = mapDelete m h := by
    intro m
    unfold mapDelete
    rw [List.filter_filter]
    apply List.filter_congr
    intro p _
    cases (p.1 == h) <;> rfl
  refine ⟨?_, ?_, ?_, ?_⟩ <;>
    (simp only [step]; rw [hdel])

/-! ### C7: registry membership invariant over event sequences -/

/-- The events that remove a connection from the registry: its close or
error notification, or a publish during which its send throws (socket OPEN,
subscribed to the published feed, send fails). -/
def removesConnB (s : ServerState) (h : Nat) : Event → Bool
  | .close h' => h' == h
  | .socketError h' => h' == h
  | .publish f _ env =>
      match mapGet s.subscriptions h with
      | some cd => (env h).isOpen && decide (f ∈ cd.subscribedFeeds) &&
          !(env h).sendOk
      | none => false
  | _ => false

/-- Whether a client message is an unsubscribe listing feed `f`. -/
def unsubMentions (m : JsVal) (f : ℚ) : Bool :=
  (match getProp m "type" with
   | .ok (.str t) => t == "unsubscribe"
   | _ => false) &&
  (match getProp m "feedIds" with
   | .ok (.arr l) => listedNum l f
   | _ => false)

/-- The events after which feed `f` may leave handle `h`'s feed set: an
unsubscribe for `f` on `h`, anything that unregisters `h`, or a (physically
impossible) handle reuse by a fresh connect. -/
def removesFeedB (s : ServerState) (h : Nat) (f : ℚ) : Event → Bool
  | .connect h' => h' == h
  | .clientMessage h' m => h' == h &&
      (match m with
       | some mm => unsubMentions mm f
       | none => false)
  | .close h' => h' == h
  | .socketError h' => h' == h
  | .publish fd p env => removesConnB s h (.publish fd p env)

/-- A run in which no event disturbs `h`'s subscription to `f` (evaluated
against the state each event actually fires in). -/
def PreservesFeed (h : Nat) (f : ℚ) : ServerState → List Event → Prop
  | _, [] => True
  | s, e :: tr => removesFeedB s h f e = false ∧ PreservesFeed h f (step s e).1 tr

lemma mem_of_mapGet {m : Registry} {k : Nat} {cd : ClientData}
    (h : mapGet m k = some cd) : (k, cd) ∈ m := by
  unfold mapGet at h
  cases hfind : m.find? (fun p => p.1 == k) with
  | none => rw [hfind] at h; cases h
  | some p =>
      rw [hfind] at h
      have hmem := List.mem_of_find?_eq_some hfind
      have hkey : (fun q : Nat × ClientData => q.1 == k) p = true :=
        @List.find?_some (Nat × ClientData) (fun q => q.1 == k) p m hfind
      have h1 : p.1 = k := by simpa using hkey
      have h2 : p.2 = cd := Option.some_inj.1 h
      rw [← h1, ← h2]
      exact hmem

lemma mapGet_filter {m : Registry} {k : Nat} {cd : ClientData}
    {pred : Nat × ClientData → Bool}
    (hget : mapGet m k = some cd) (hp : pred (k, cd) = true) :
    mapGet (m.filter pred) k = some cd := by
  induction m with
  | nil => cases hget
  | cons p rest ih =>
      by_cases hk : (p.1 == k) = true
      · have hcd : p.2 = cd := by
          rw [mapGet_cons_of_pos hk] at hget
          exact Option.some_inj.1 hget
        have hpk : p = (k, cd) := by
          have : p.1 = k := by simpa using hk
          rw [← this, ← hcd]
        rw [List.filter_cons, if_pos (by rw [hpk]; exact hp)]
        rw [mapGet_cons_of_pos hk, hcd]
      · have hkf : (p.1 == k) = false := by simpa using hk
        rw [mapGet_cons_of_neg hkf] at hget
        rw [List.filter_cons]
        by_cases hpp : pred p = true
        · rw [if_pos hpp, mapGet_cons_of_neg hkf]
          exact ih hget
        · rw [if_neg hpp]
          exact ih hget

lemma mapGet_filter_none {m : Registry} {k : Nat}
    {pred : Nat × ClientData → Bool}
    (h : mapGet m k = none) : mapGet (m.filter pred) k = none := by
  unfold mapGet at h ⊢
  rw [Option.map_eq_none'] at h ⊢
  rw [List.find?_eq_none] at h ⊢
  intro p hp
  exact h p (List.mem_of_mem_filter hp)

/-- `handleSubscription` either leaves the registry unchanged or rewrites
the calling connection's entry with a larger feed set. -/
lemma handleSubscription_state (st : ServerState) (wsH : Nat) (m : JsVal) :
    (handleSubscription st wsH m).state.subscriptions = st.subscriptions ∨
    ∃ cd feeds, mapGet st.subscriptions wsH = some cd ∧
      cd.subscribedFeeds ⊆ feeds ∧
      (handleSubscription st wsH m).state.subscriptions =
        mapSet st.subscriptions wsH ⟨cd.id, feeds⟩ := by
  cases hreg : mapGet st.subscriptions wsH with
  | none => left; simp only [handleSubscription, hreg]
  | some cd =>
      cases hv : getProp m "subscriptions" with
      | error e => left; simp only [handleSubscription, hreg, hv]
      | ok v =>
          cases v with
          | arr elems =>
              refine Or.inr ⟨cd,
                (subLoop st.currentPrices cd.subscribedFeeds elems).2.1, rfl,
                subLoop_mono st.currentPrices elems cd.subscribedFeeds, ?_⟩
              simp only [handleSubscription, hreg, hv]
              split
              · rfl
              · split
                · rfl
                · rfl
          | null => left; simp only [handleSubscription, hreg, hv]
          | undefined => left; simp only [handleSubscription, hreg, hv]
          | bool b => left; simp only [handleSubscription, hreg, hv]
          | num q => left; simp only [handleSubscription, hreg, hv]
          | str s => left; simp only [handleSubscription, hreg, hv]
          | obj l => left; simp only [handleSubscription, hreg, hv]

/-- `handleUnsubscription` either leaves the registry unchanged or rewrites
the calling connection's entry, removing exactly the listed feeds. -/
lemma handleUnsubscription_state (st : ServerState) (wsH : Nat) (m : JsVal) :
    (handleUnsubscription st wsH m).state.subscriptions = st.subscriptions ∨
    ∃ cd elems, mapGet st.subscriptions wsH = some cd ∧
      getProp m "feedIds" = .ok (.arr elems) ∧
      (handleUnsubscription st wsH m).state.subscriptions =
        mapSet st.subscriptions wsH
          ⟨cd.id, cd.subscribedFeeds.filter (fun q => !listedNum elems q)⟩ := by
  cases hreg : mapGet st.subscriptions wsH with
  | none => left; simp only [handleUnsubscription, hreg]
  | some cd =>
      cases hv : getProp m "feedIds" with
      | error e => left; simp only [handleUnsubscription, hreg, hv]
      | ok v =>
          cases v with
          | arr elems =>
              refine Or.inr ⟨cd, elems, rfl, rfl, ?_⟩
              simp only [handleUnsubscription, hreg, hv,
                (unsubLoop_spec elems cd.subscribedFeeds).1]
          | null => left; simp only [handleUnsubscription, hreg, hv]
          | undefined => left; simp only [handleUnsubscription, hreg, hv]
          | bool b => left; simp only [handleUnsubscription, hreg, hv]
          | num q => left; simp only [handleUnsubscription, hreg, hv]
          | str s => left; simp only [handleUnsubscription, hreg, hv]
          | obj l => left; simp only [handleUnsubscription, hreg, hv]

/-- `handleClientMessage` either leaves the state unchanged or defers to
one of the two subscription handlers (the unsubscribe path only for a
message whose `type` is the string "unsubscribe"). -/
lemma handleClientMessage_state (st : ServerState) (wsH : Nat) (m : JsVal) :
    (handleClientMessage st wsH m).state = st ∨
    (handleClientMessage st wsH m).state = (handleSubscription st wsH m).state ∨
    (getProp m "type" = .ok (.str "unsubscribe") ∧
      (handleClientMessage st wsH m).state =
        (handleUnsubscription st wsH m).state) := by
  cases hreg : mapGet st.subscriptions wsH with
  | none => left; simp only [handleClientMessage, hreg]
  | some cd =>
      cases ht : getProp m "type" with
      | error e => left; simp only [handleClientMessage, hreg, ht]
      | ok t =>
          simp only [handleClientMessage, hreg, ht]
          split
          · right; left; rfl
          · right; right; exact ⟨rfl, rfl⟩
          · left; rfl
          · left; rfl

lemma mapGet_eq_of_mem_nodup {m : Registry} {k : Nat} {cd : ClientData}
    (hnd : (m.map Prod.fst).Nodup) (hmem : (k, cd) ∈ m) :
    mapGet m k = some cd := by
  induction m with
  | nil => cases hmem
  | cons p rest ih =>
      simp only [List.map_cons, List.nodup_cons] at hnd
      rcases List.mem_cons.1 hmem with he | hmem'
      · rw [← he]
        exact mapGet_cons_of_pos (by simp)
      · have hne : (p.1 == k) = false :=
          beq_eq_false_iff_ne.mpr (fun e =>
            hnd.1 (by rw [e]; exact List.mem_map.2 ⟨(k, cd), hmem', rfl⟩))
        rw [mapGet_cons_of_neg hne]
        exact ih hnd.2 hmem'

/-- A client-message event never changes which handles are registered. -/
lemma registeredB_after_clientMessage (st : ServerState) (h' : Nat)
    (m : Option JsVal) (h : Nat) :
    registeredB (step st (.clientMessage h' m)).1 h = registeredB st h := by
  cases m with
  | none => rfl
  | some mm =>
      have hstate : (step st (.clientMessage h' (some mm))).1 =
          (handleClientMessage st h' mm).state := by
        simp only [step]
        split <;> rfl
      rw [hstate]
      have key : ∀ (res : Registry) (cd : ClientData) (feeds : Finset ℚ),
          mapGet st.subscriptions h' = some cd →
          res = mapSet st.subscriptions h' ⟨cd.id, feeds⟩ →
          (mapGet res h).isSome = (mapGet st.subscriptions h).isSome := by
        intro res cd feeds hreg hres
        by_cases he : h = h'
        · subst he
          rw [hres, mapGet_mapSet_self, hreg]
          rfl
        · rw [hres, mapGet_mapSet_ne _ _ _ _ he]
      rcases handleClientMessage_state st h' mm with hc | hc | ⟨_, hc⟩
      · rw [registeredB, hc]
        rfl
      · rw [registeredB, hc]
        rcases handleSubscription_state st h' mm with hs | ⟨cd, feeds, hreg, _, hs⟩
        · rw [registeredB, hs]
        · exact key _ cd feeds hreg hs
      · rw [registeredB, hc]
        rcases handleUnsubscription_state st h' mm with hs | ⟨cd, elems, hreg, _, hs⟩
        · rw [registeredB, hs]
        · exact key _ cd _ hreg hs

/-- Every step preserves distinctness of the registry keys. -/
lemma keysNodup_step (st : ServerState) (e : Event)
    (hnd : keysNodup st) : keysNodup (step st e).1 := by
  cases e with
  | connect h => exact nodup_mapSet hnd
  | close h => exact nodup_mapDelete hnd
  | socketError h => exact nodup_mapDelete hnd
  | publish f v env =>
      have hst : (step st (.publish f v env)).1.subscriptions =
          (broadcastLoop env f (priceUpdateMessage f v) st.subscriptions).2 :=
        rfl
      unfold keysNodup
      rw [hst, broadcastLoop_regs]
      exact ((List.filter_sublist _).map Prod.fst).nodup hnd
  | clientMessage h' m =>
      cases m with
      | none => exact hnd
      | some mm =>
          have hstate : (step st (.clientMessage h' (some mm))).1 =
              (handleClientMessage st h' mm).state := by
            simp only [step]
            split <;> rfl
          unfold keysNodup
          rw [hstate]
          have key : ∀ (cd : ClientData) (feeds : Finset ℚ),
              ((mapSet st.subscriptions h' ⟨cd.id, feeds⟩).map
                Prod.fst).Nodup := fun _ _ => nodup_mapSet hnd
          rcases handleClientMessage_state st h' mm with hc | hc | ⟨_, hc⟩
          · rw [hc]; exact hnd
          · rw [hc]
            rcases handleSubscription_state st h' mm with
              hs | ⟨cd, feeds, _, _, hs⟩
            · rw [hs]; exact hnd
            · rw [hs]; exact key cd feeds
          · rw [hc]
            rcases handleUnsubscription_state st h' mm with
              hs | ⟨cd, elems, _, _, hs⟩
            · rw [hs]; exact hnd
            · rw [hs]; exact key cd _

/-- REMOVED is terminal: an unregistered handle stays unregistered under
every event except a fresh connect on that very handle. -/
lemma not_registered_step {st : ServerState} {e : Event} {h : Nat}
    (hr : registeredB st h = false)
    (hc : ∀ h', e = .connect h' → h' ≠ h) :
    registeredB (step st e).1 h = false := by
  cases e with
  | connect h' =>
      have hne : h ≠ h' := fun he => (hc h' rfl) he.symm
      unfold registeredB step
      rw [mapGet_mapSet_ne _ _ _ _ hne]
      exact hr
  | clientMessage h' m => rw [registeredB_after_clientMessage]; exact hr
  | close h' =>
      by_cases he : h = h'
      · subst he
        unfold registeredB step
        rw [mapGet_mapDelete_self]
        rfl
      · unfold registeredB step
        rw [mapGet_mapDelete_ne _ _ _ he]
        exact hr
  | socketError h' =>
      by_cases he : h = h'
      · subst he
        unfold registeredB step
        rw [mapGet_mapDelete_self]
        rfl
      · unfold registeredB step
        rw [mapGet_mapDelete_ne _ _ _ he]
        exact hr
  | publish f v env =>
      have hst : (step st (.publish f v env)).1.subscriptions =
          (broadcastLoop env f (priceUpdateMessage f v) st.subscriptions).2 :=
        rfl
      unfold registeredB
      rw [hst, broadcastLoop_regs]
      have hnone : mapGet st.subscriptions h = none := by
        unfold registeredB at hr
        exact Option.not_isSome_iff_eq_none.1 (by simp [hr])
      rw [mapGet_filter_none hnone]
      rfl

/-- `subscribersOf` membership unfolded to a registry lookup (keys
distinct). -/
lemma mem_subscribersOf_iff {st : ServerState} {f : ℚ} {h : Nat}
    (hnd : keysNodup st) :
    h ∈ subscribersOf st f ↔
      ∃ cd, mapGet st.subscriptions h = some cd ∧ f ∈ cd.subscribedFeeds := by
  unfold subscribersOf
  constructor
  · intro hm
    obtain ⟨p, hp, he⟩ := List.mem_map.1 hm
    have hpf := List.mem_filter.1 hp
    refine ⟨p.2, ?_, by simpa using hpf.2⟩
    rw [← he]
    exact mapGet_eq_of_mem_nodup hnd hpf.1
  · rintro ⟨cd, hget, hf⟩
    exact List.mem_map.2 ⟨(h, cd),
      List.mem_filter.2 ⟨mem_of_mapGet hget, by simpa using hf⟩, rfl⟩

/-- A registered handle stays registered under every event that does not
remove it. -/
lemma registered_step {st : ServerState} {e : Event} {h : Nat}
    (hr : registeredB st h = true)
    (hnr : removesConnB st h e = false) :
    registeredB (step st e).1 h = true := by
  cases e with
  | connect h' =>
      have hst : (step st (.connect h')).1.subscriptions =
          mapSet st.subscriptions h' ⟨st.connectionId + 1, ∅⟩ := rfl
      unfold registeredB
      rw [hst]
      by_cases he : h = h'
      · subst he
        rw [mapGet_mapSet_self]
        rfl
      · rw [mapGet_mapSet_ne _ _ _ _ he]
        exact hr
  | clientMessage h' m =>
      rw [registeredB_after_clientMessage]
      exact hr
  | close h' =>
      have hne : h ≠ h' := by
        intro he
        subst he
        simp [removesConnB] at hnr
      unfold registeredB
      have hst : (step st (.close h')).1.subscriptions =
          mapDelete st.subscriptions h' := rfl
      rw [hst, mapGet_mapDelete_ne _ _ _ hne]
      exact hr
  | socketError h' =>
      have hne : h ≠ h' := by
        intro he
        subst he
        simp [removesConnB] at hnr
      unfold registeredB
      have hst : (step st (.socketError h')).1.subscriptions =
          mapDelete st.subscriptions h' := rfl
      rw [hst, mapGet_mapDelete_ne _ _ _ hne]
      exact hr
  | publish f v env =>
      obtain ⟨cd, hget⟩ := Option.isSome_iff_exists.1 (by simpa [registeredB] using hr)
      have hkill : (!broadcastKills env f (h, cd)) = true := by
        simp only [removesConnB, hget] at hnr
        simp [broadcastKills, hnr]
      have hst : (step st (.publish f v env)).1.subscriptions =
          (broadcastLoop env f (priceUpdateMessage f v) st.subscriptions).2 :=
        rfl
      unfold registeredB
      rw [hst, broadcastLoop_regs, mapGet_filter hget hkill]
      rfl

/-- A feed stays in a handle's set under every event that does not disturb
it. -/
lemma feed_preserved_step {st : ServerState} {e : Event} {h : Nat} {f : ℚ}
    {cd : ClientData}
    (hget : mapGet st.subscriptions h = some cd) (hf : f ∈ cd.subscribedFeeds)
    (hne : removesFeedB st h f e = false) :
    ∃ cd', mapGet (step st e).1.subscriptions h = some cd' ∧
      f ∈ cd'.subscribedFeeds := by
  cases e with
  | connect h' =>
      have hneq : h ≠ h' := by
        intro he
        subst he
        simp [removesFeedB] at hne
      have hst : (step st (.connect h')).1.subscriptions =
          mapSet st.subscriptions h' ⟨st.connectionId + 1, ∅⟩ := rfl
      rw [hst, mapGet_mapSet_ne _ _ _ _ hneq]
      exact ⟨cd, hget, hf⟩
  | close h' =>
      have hneq : h ≠ h' := by
        intro he
        subst he
        simp [removesFeedB] at hne
      have hst : (step st (.close h')).1.subscriptions =
          mapDelete st.subscriptions h' := rfl
      rw [hst, mapGet_mapDelete_ne _ _ _ hneq]
      exact ⟨cd, hget, hf⟩
  | socketError h' =>
      have hneq : h ≠ h' := by
        intro he
        subst he
        simp [removesFeedB] at hne
      have hst : (step st (.socketError h')).1.subscriptions =
          mapDelete st.subscriptions h' := rfl
      rw [hst, mapGet_mapDelete_ne _ _ _ hneq]
      exact ⟨cd, hget, hf⟩
  | publish fd p env =>
      have hkill : (!broadcastKills env fd (h, cd)) = true := by
        simp only [removesFeedB, removesConnB, hget] at hne
        simp [broadcastKills, hne]
      have hst : (step st (.publish fd p env)).1.subscriptions =
          (broadcastLoop env fd (priceUpdateMessage fd p) st.subscriptions).2 :=
        rfl
      rw [hst, broadcastLoop_regs, mapGet_filter hget hkill]
      exact ⟨cd, rfl, hf⟩
  | clientMessage h' m =>
      cases m with
      | none => exact ⟨cd, hget, hf⟩
      | some mm =>
          have hstate : (step st (.clientMessage h' (some mm))).1 =
              (handleClientMessage st h' mm).state := by
            simp only [step]
            split <;> rfl
          rw [hstate]
          by_cases hh : h' = h
          · subst hh
            have hment : unsubMentions mm f = false := by
              simpa [removesFeedB] using hne
            rcases handleClientMessage_state st h' mm with hc | hc | ⟨htype, hc⟩
            · rw [hc]
              exact ⟨cd, hget, hf⟩
            · rw [hc]
              rcases handleSubscription_state st h' mm with
                hs | ⟨cd0, feeds, hreg, hsub, hs⟩
              · rw [hs]
                exact ⟨cd, hget, hf⟩
              · rw [hs, mapGet_mapSet_self]
                refine ⟨⟨cd0.id, feeds⟩, rfl, ?_⟩
                have : cd0 = cd := by
                  rw [hget] at hreg
                  exact Option.some_inj.1 hreg.symm
                exact hsub (by rw [this]; exact hf)
            · rw [hc]
              rcases handleUnsubscription_state st h' mm with
                hs | ⟨cd0, elems, hreg, harr, hs⟩
              · rw [hs]
                exact ⟨cd, hget, hf⟩
              · rw [hs, mapGet_mapSet_self]
                refine ⟨⟨cd0.id,
                  cd0.subscribedFeeds.filter (fun q => !listedNum elems q)⟩,
                  rfl, ?_⟩
                have hcd : cd0 = cd := by
                  rw [hget] at hreg
                  exact Option.some_inj.1 hreg.symm
                have hlisted : listedNum elems f = false := by
                  unfold unsubMentions at hment
                  rw [htype, harr] at hment
                  simpa using hment
                subst hcd
                exact Finset.mem_filter.2 ⟨hf, by simp [hlisted]⟩
          · have key : ∀ (res : Registry) (cd1 : ClientData) (feeds : Finset ℚ),
                res = mapSet st.subscriptions h' ⟨cd1.id, feeds⟩ →
                mapGet res h = mapGet st.subscriptions h := by
              intro res cd1 feeds hres
              rw [hres, mapGet_mapSet_ne _ _ _ _ (fun e => hh e.symm)]
            rcases handleClientMessage_state st h' mm with hc | hc | ⟨_, hc⟩
            · rw [hc]
              exact ⟨cd, hget, hf⟩
            · rw [hc]
              rcases handleSubscription_state st h' mm with
                hs | ⟨cd0, feeds, _, _, hs⟩
              · rw [hs]
                exact ⟨cd, hget, hf⟩
              · rw [hs]
                rw [show (mapSet st.subscriptions h' ⟨cd0.id, feeds⟩) =
                  mapSet st.subscriptions h' ⟨cd0.id, feeds⟩ from rfl] at hs
                rw [key _ cd0 feeds rfl]
                exact ⟨cd, hget, hf⟩
            · rw [hc]
              rcases handleUnsubscription_state st h' mm with
                hs | ⟨cd0, elems, _, _, hs⟩
              · rw [hs]
                exact ⟨cd, hget, hf⟩
              · rw [hs, key _ cd0 _ rfl]
                exact ⟨cd, hget, hf⟩

/-- Trace version of subscription persistence. -/
lemma preservesFeed_runFrom {st : ServerState} {tr : List Event} {h : Nat}
    {f : ℚ}
    (hsub : ∃ cd, mapGet st.subscriptions h = some cd ∧
      f ∈ cd.subscribedFeeds)
    (hpres : PreservesFeed h f st tr) :
    ∃ cd', mapGet (runFrom st tr).subscriptions h = some cd' ∧
      f ∈ cd'.subscribedFeeds := by
  induction tr generalizing st with
  | nil => exact hsub
  | cons e tr ih =>
      obtain ⟨cd, hget, hf⟩ := hsub
      exact ih (feed_preserved_step hget hf hpres.1) hpres.2

/-- Trace version: once unregistered, a handle the transport never
reconnects stays out of the registry for the rest of the run. -/
lemma not_registered_runFrom {st : ServerState} {tr : List Event} {h : Nat}
    (hr : registeredB st h = false)
    (hc : ∀ h', Event.connect h' ∈ tr → h' ≠ h) :
    registeredB (runFrom st tr) h = false := by
  induction tr generalizing st with
  | nil => exact hr
  | cons e tr ih =>
      exact ih
        (not_registered_step hr (fun h' he => hc h' (he ▸ List.mem_cons_self _ _)))
        (fun h' hm => hc h' (List.mem_cons_of_mem _ hm))

/-- Only registered handles appear in `subscribersOf`. -/
lemma registered_of_mem_subscribersOf {st : ServerState} {f : ℚ} {h : Nat}
    (hm : h ∈ subscribersOf st f) : registeredB st h = true := by
  obtain ⟨p, hp, he⟩ := List.mem_map.1 hm
  have hpf := List.mem_filter.1 hp
  have : (st.subscriptions.find? (fun p => p.1 == h)).isSome :=
    List.find?_isSome.2 ⟨p, hpf.1, by simp [he]⟩
  simpa [registeredB, mapGet] using this

lemma keysNodup_runFrom {st : ServerState} {tr : List Event}
    (hnd : keysNodup st) : keysNodup (runFrom st tr) := by
  induction tr generalizing st with
  | nil => exact hnd
  | cons e tr ih => exact ih (keysNodup_step st e hnd)

/-- C7: the registry membership invariant.  (1) registry keys are distinct
in the initial state and stay so across every step; (2) a connection is
registered from its connect notification on; (3) close and error
notifications unregister it; (4) REMOVED is terminal: an unregistered
handle stays unregistered under every event except a fresh connect of that
handle (which the transport never reuses); (5) hence `subscribersOf` never
includes a connection after its unregister completes; (6) a registered
connection stays registered as long as no close/error arrives and no
broadcast send of its fails; (7) a registered connection whose feed set
contains `f` is in `subscribersOf f`; (8) a completed subscribe accepting
`f` puts the connection into `subscribersOf f`; (9) it remains there along
any run in which no unsubscribe listing `f`, no unregistering event and no
broadcast-death of that connection occurs. -/
theorem registry_membership_invariant :
    (keysNodup initialState ∧
      ∀ (s : ServerState) (e : Event), keysNodup s → keysNodup (step s e).1) ∧
    (∀ (s : ServerState) (h : Nat),
      registeredB (step s (.connect h)).1 h = true) ∧
    (∀ (s : ServerState) (h : Nat),
      registeredB (step s (.close h)).1 h = false ∧
      registeredB (step s (.socketError h)).1 h = false) ∧
    (∀ (s : ServerState) (e : Event) (h : Nat), registeredB s h = false →
      (∀ h', e = .connect h' → h' ≠ h) →
      registeredB (step s e).1 h = false) ∧
    (∀ (s : ServerState) (tr : List Event) (h : Nat) (f : ℚ),
      registeredB s h = false →
      (∀ h', Event.connect h' ∈ tr → h' ≠ h) →
      h ∉ subscribersOf (runFrom s tr) f) ∧
    (∀ (s : ServerState) (e : Event) (h : Nat), registeredB s h = true →
      removesConnB s h e = false → registeredB (step s e).1 h = true) ∧
    (∀ (s : ServerState) (h : Nat) (f : ℚ) (cd : ClientData),
      mapGet s.subscriptions h = some cd → f ∈ cd.subscribedFeeds →
      h ∈ subscribersOf s f) ∧
    (∀ (st : ServerState) (wsH : Nat) (cd : ClientData) (message : JsVal)
       (elems : List JsVal) (f : ℚ),
      mapGet st.subscriptions wsH = some cd →
      getProp message "subscriptions" = .ok (.arr elems) →
      (∀ el ∈ elems, el ≠ JsVal.null ∧ el ≠ JsVal.undefined) →
      f ∈ acceptedIds elems →
      wsH ∈ subscribersOf (handleSubscription st wsH message).state f) ∧
    (∀ (s : ServerState) (tr : List Event) (h : Nat) (f : ℚ),
      keysNodup s → h ∈ subscribersOf s f → PreservesFeed h f s tr →
      h ∈ subscribersOf (runFrom s tr) f) := by
  refine ⟨⟨List.nodup_nil, keysNodup_step⟩, ?_, ?_, ?_, ?_, ?_, ?_, ?_, ?_⟩
  · intro s h
    have hst : (step s (.connect h)).1.subscriptions =
        mapSet s.subscriptions h ⟨s.connectionId + 1, ∅⟩ := rfl
    unfold registeredB
    rw [hst, mapGet_mapSet_self]
    rfl
  · intro s h
    constructor
    · unfold registeredB
      have hst : (step s (.close h)).1.subscriptions =
          mapDelete s.subscriptions h := rfl
      rw [hst, mapGet_mapDelete_self]
      rfl
    · unfold registeredB
      have hst : (step s (.socketError h)).1.subscriptions =
          mapDelete s.subscriptions h := rfl
      rw [hst, mapGet_mapDelete_self]
      rfl
  · intro s e h hr hc
    exact not_registered_step hr hc
  · intro s tr h f hr hc hm
    have := not_registered_runFrom hr hc
    rw [registered_of_mem_subscribersOf hm] at this
    cases this
  · intro s e h hr hnr
    exact registered_step hr hnr
  · intro s h f cd hget hf
    exact List.mem_map.2 ⟨(h, cd),
      List.mem_filter.2 ⟨mem_of_mapGet hget, by simpa using hf⟩, rfl⟩
  · intro st wsH cd message elems f hreg harr hnn hf
    obtain ⟨sidv, _, heq⟩ := handleSubscription_spec hreg harr hnn
    rw [heq]
    refine List.mem_map.2 ⟨(wsH, ⟨cd.id,
      cd.subscribedFeeds ∪ (acceptedIds elems).toFinset⟩),
      List.mem_filter.2 ⟨?_, ?_⟩, rfl⟩
    · exact mem_of_mapGet (mapGet_mapSet_self _ _ _)
    · simp only [decide_eq_true_eq]
      exact Finset.mem_union_right _ (List.mem_toFinset.2 hf)
  · intro s tr h f hnd hm hpres
    obtain ⟨cd, hget, hf⟩ := (mem_subscribersOf_iff hnd).1 hm
    obtain ⟨cd', hget', hf'⟩ := preservesFeed_runFrom ⟨cd, hget, hf⟩ hpres
    exact List.mem_map.2 ⟨(h, cd'),
      List.mem_filter.2 ⟨mem_of_mapGet hget', by simpa using hf'⟩, rfl⟩

/-- Witness for C7: connection 0, never connected, is not among the
subscribers of feed 6 after a run consisting of one stray subscribe
message. -/
theorem registry_membership_invariant_witness :
    0 ∉ subscribersOf
      (runFrom initialState [.clientMessage 0 (some subSixMsg)]) 6 :=
  registry_membership_invariant.2.2.2.2.1 initialState
    [.clientMessage 0 (some subSixMsg)] 0 6 rfl
    (fun h' hm => by simp at hm)

end SolFeed
